import Mathlib

/-!
Verification development for the svswap save-file player-swap tool
(src/svswap.py).  The XML document tree, the structural child finder
`xml_find_one_child`, the module-level pipeline (directory checks, parse,
locate, name extraction, prompt loops, mutation sequence, persist step)
are shallowly embedded below, following the Python source line by line.
File-system state is an association list of directory entries; the
`rename` operation follows POSIX semantics (an existing destination is
silently replaced), matching `pathlib.Path.rename` on the platform the
script targets.
-/

set_option maxHeartbeats 1000000
set_option linter.unnecessarySeqFocus false

/-- An XML element as lxml presents it: a tag, an attribute mapping,
optional text, and an ordered list of child elements. -/
inductive Element where
  | mk : String → List (String × String) → Option String → List Element → Element

def Element.tag : Element → String
  | .mk t _ _ _ => t

def Element.attrib : Element → List (String × String)
  | .mk _ a _ _ => a

def Element.text : Element → Option String
  | .mk _ _ tx _ => tx

def Element.children : Element → List Element
  | .mk _ _ _ cs => cs

def Element.setTag (e : Element) (t : String) : Element :=
  match e with
  | .mk _ a tx cs => .mk t a tx cs

def Element.setText (e : Element) (tx : Option String) : Element :=
  match e with
  | .mk t a _ cs => .mk t a tx cs

def Element.setChildren (e : Element) (cs : List Element) : Element :=
  match e with
  | .mk t a tx _ => .mk t a tx cs

@[simp] theorem Element.tag_mk (t a tx cs) : (Element.mk t a tx cs).tag = t := rfl

@[simp] theorem Element.attrib_mk (t a tx cs) : (Element.mk t a tx cs).attrib = a := rfl

@[simp] theorem Element.text_mk (t a tx cs) : (Element.mk t a tx cs).text = tx := rfl

@[simp] theorem Element.children_mk (t a tx cs) : (Element.mk t a tx cs).children = cs := rfl

@[simp] theorem Element.tag_setTag (e : Element) (t : String) : (e.setTag t).tag = t := by
  cases e <;> rfl

@[simp] theorem Element.attrib_setTag (e : Element) (t : String) :
    (e.setTag t).attrib = e.attrib := by
  cases e <;> rfl

@[simp] theorem Element.text_setTag (e : Element) (t : String) :
    (e.setTag t).text = e.text := by
  cases e <;> rfl

@[simp] theorem Element.children_setTag (e : Element) (t : String) :
    (e.setTag t).children = e.children := by
  cases e <;> rfl

@[simp] theorem Element.tag_setText (e : Element) (tx : Option String) :
    (e.setText tx).tag = e.tag := by
  cases e <;> rfl

@[simp] theorem Element.text_setText (e : Element) (tx : Option String) :
    (e.setText tx).text = tx := by
  cases e <;> rfl

@[simp] theorem Element.attrib_setText (e : Element) (tx : Option String) :
    (e.setText tx).attrib = e.attrib := by
  cases e <;> rfl

@[simp] theorem Element.children_setText (e : Element) (tx : Option String) :
    (e.setText tx).children = e.children := by
  cases e <;> rfl

@[simp] theorem Element.tag_setChildren (e : Element) (cs : List Element) :
    (e.setChildren cs).tag = e.tag := by
  cases e <;> rfl

@[simp] theorem Element.attrib_setChildren (e : Element) (cs : List Element) :
    (e.setChildren cs).attrib = e.attrib := by
  cases e <;> rfl

@[simp] theorem Element.text_setChildren (e : Element) (cs : List Element) :
    (e.setChildren cs).text = e.text := by
  cases e <;> rfl

@[simp] theorem Element.children_setChildren (e : Element) (cs : List Element) :
    (e.setChildren cs).children = cs := by
  cases e <;> rfl

/-- The errors `xml_find_one_child` can raise (both are Python `KeyError`s,
distinguished by their message text). -/
inductive FindError where
  | foundMultiple (name ptag : String)
  | notFound (name ptag : String)

/-- Lookup in an attribute mapping: models `child.attrib[k]` together with
the `k in child.attrib` membership test. -/
def attribGet (k : String) : List (String × String) → Option String
  | [] => none
  | kv :: rest => if kv.1 = k then some kv.2 else attribGet k rest

/-- The `for child in element` loop of `xml_find_one_child`, with the
`match` accumulator threaded through.  In the source, recording a match is
immediately followed by `break`, so the loop returns right there; the
`raise KeyError("Found multiple ...")` branches are kept exactly where the
source has them (guarding on an already-recorded match). -/
def findChildLoop (name ptag : String) (attrib : Option (String × String)) :
    List Element → Option Element → Except FindError (Option Element)
  | [], m => .ok m
  | child :: rest, m =>
    if child.tag = name then
      match attrib with
      | none =>
        match m with
        | some _ => .error (.foundMultiple name ptag)
        | none => .ok (some child)
      | some av =>
        match attribGet av.1 child.attrib with
        | some v =>
          if v = av.2 then
            match m with
            | some _ => .error (.foundMultiple name ptag)
            | none => .ok (some child)
          else findChildLoop name ptag attrib rest m
        | none => findChildLoop name ptag attrib rest m
    else findChildLoop name ptag attrib rest m

/-- `xml_find_one_child(element, name, attrib)` from src/svswap.py:
scan the direct children, record a match (and `break`), and raise
`KeyError` if no match was recorded. -/
def xml_find_one_child (element : Element) (name : String)
    (attrib : Option (String × String)) : Except FindError Element :=
  match findChildLoop name element.tag attrib element.children none with
  | .error e => .error e
  | .ok none => .error (.notFound name element.tag)
  | .ok (some c) => .ok c

/-- First child with the given tag, in document order. -/
def findFirstTag (name : String) : List Element → Option Element
  | [] => none
  | c :: rest => if c.tag = name then some c else findFirstTag name rest

/-- Index of the first child with the given tag. -/
def firstTagIdx (name : String) : List Element → Option Nat
  | [] => none
  | c :: rest => if c.tag = name then some 0 else (firstTagIdx name rest).map (· + 1)

/-- Started with no recorded match, the finder loop never raises: the
`break` after recording a match makes the duplicate branches dead code.
Without an attribute filter it returns the first tag match. -/
theorem findChildLoop_none_eq (name ptag : String) (cs : List Element) :
    findChildLoop name ptag none cs none = .ok (findFirstTag name cs) := by
  induction cs with
  | nil => rfl
  | cons c rest ih =>
    by_cases h : c.tag = name
    · simp [findChildLoop, findFirstTag, h]
    · simp [findChildLoop, findFirstTag, h, ih]

/-- The attribute-filtered loop, started with no recorded match, also
never raises and returns the first full match. -/
theorem findChildLoop_attrib_no_error (name ptag : String) (av : String × String)
    (cs : List Element) (err : FindError) :
    findChildLoop name ptag (some av) cs none ≠ .error err := by
  induction cs with
  | nil => simp [findChildLoop]
  | cons c rest ih =>
    by_cases h : c.tag = name
    · simp only [findChildLoop, h, if_pos]
      match hv : attribGet av.1 c.attrib with
      | none => simpa using ih
      | some v =>
        by_cases hv2 : v = av.2
        · simp [hv2]
        · simpa [hv2] using ih
    · simpa [findChildLoop, h] using ih

/-- Characterization of the no-filter finder in terms of first tag match. -/
theorem xml_find_one_child_none_eq (e : Element) (name : String) :
    xml_find_one_child e name none =
      (match findFirstTag name e.children with
       | some c => .ok c
       | none => .error (.notFound name e.tag)) := by
  unfold xml_find_one_child
  rw [findChildLoop_none_eq]
  cases findFirstTag name e.children <;> rfl

theorem xml_find_one_child_ok_iff (e : Element) (name : String) (c : Element) :
    xml_find_one_child e name none = .ok c ↔ findFirstTag name e.children = some c := by
  rw [xml_find_one_child_none_eq]
  cases h : findFirstTag name e.children <;> simp

theorem xml_find_one_child_error_iff (e : Element) (name : String) (err : FindError) :
    xml_find_one_child e name none = .error err ↔
      findFirstTag name e.children = none ∧ err = .notFound name e.tag := by
  rw [xml_find_one_child_none_eq]
  cases h : findFirstTag name e.children with
  | none =>
    constructor
    · intro hh
      refine ⟨rfl, ?_⟩
      cases hh
      rfl
    · rintro ⟨-, rfl⟩
      rfl
  | some c => simp

/-- Any error the finder raises is the not-found error: the duplicate
error is unreachable. -/
theorem xml_find_one_child_error_is_notFound (e : Element) (name : String)
    (attrib : Option (String × String)) (err : FindError) :
    xml_find_one_child e name attrib = .error err → err = .notFound name e.tag := by
  unfold xml_find_one_child
  match attrib with
  | none =>
    rw [findChildLoop_none_eq]
    cases findFirstTag name e.children with
    | none =>
      intro h
      cases h
      rfl
    | some c => intro h; cases h
  | some av =>
    match hloop : findChildLoop name e.tag (some av) e.children none with
    | .error e2 => exact absurd hloop (findChildLoop_attrib_no_error _ _ _ _ _)
    | .ok none =>
      intro h
      cases h
      rfl
    | .ok (some c) => intro h; cases h

/-- findFirstTag returns elements that carry the searched tag. -/
theorem findFirstTag_tag {name : String} {cs : List Element} {c : Element}
    (h : findFirstTag name cs = some c) : c.tag = name := by
  induction cs with
  | nil => cases h
  | cons d rest ih =>
    by_cases hd : d.tag = name
    · simp only [findFirstTag, hd, if_pos] at h
      cases h
      exact hd
    · simp only [findFirstTag, hd, if_neg, if_false] at h
      exact ih h

/-- Positional indexing, models Python `lst[i]` for a non-negative index
(raising `IndexError` corresponds to `none`). -/
def nth {α : Type} : List α → Nat → Option α
  | [], _ => none
  | a :: _, 0 => some a
  | _ :: rest, n + 1 => nth rest n

/-- Removal at a position, models `list.remove(obj)` where `obj` is the
element at that position (CPython removes by identity here since the
element objects are distinct). -/
def eraseAt {α : Type} : List α → Nat → List α
  | [], _ => []
  | _ :: rest, 0 => rest
  | c :: rest, n + 1 => c :: eraseAt rest n

/-- `parent.remove(child)` where `child` is the first child carrying the
given tag (which is how the finder located it). -/
def removeFirstTag (name : String) : List Element → List Element
  | [] => []
  | c :: rest => if c.tag = name then rest else c :: removeFirstTag name rest

/-- In-place mutation of the first child carrying the given tag, seen from
the parent: the parent's child list with that slot holding the new value. -/
def replaceFirstTag (name : String) (e : Element) : List Element → List Element
  | [] => []
  | c :: rest => if c.tag = name then e :: rest else c :: replaceFirstTag name e rest

/-- `hl.text = t` where `hl` is the first child carrying the given tag,
seen from the parent's child list. -/
def setTextFirstTag (name : String) (t : Option String) : List Element → List Element
  | [] => []
  | c :: rest => if c.tag = name then c.setText t :: rest else c :: setTextFirstTag name t rest

@[simp] theorem nth_nil {α : Type} (n : Nat) : nth ([] : List α) n = none := by
  cases n <;> rfl

@[simp] theorem nth_cons_zero {α : Type} (a : α) (rest : List α) :
    nth (a :: rest) 0 = some a := rfl

@[simp] theorem nth_cons_succ {α : Type} (a : α) (rest : List α) (n : Nat) :
    nth (a :: rest) (n + 1) = nth rest n := rfl

theorem nth_isSome_iff {α : Type} (l : List α) (n : Nat) :
    (nth l n).isSome ↔ n < l.length := by
  induction l generalizing n with
  | nil => simp
  | cons a rest ih =>
    cases n with
    | zero => simp
    | succ m => simpa [Nat.succ_lt_succ_iff] using ih m

theorem length_eraseAt {α : Type} (l : List α) (n : Nat) (h : n < l.length) :
    (eraseAt l n).length + 1 = l.length := by
  induction l generalizing n with
  | nil => simp at h
  | cons a rest ih =>
    cases n with
    | zero => simp [eraseAt]
    | succ m =>
      simp only [List.length_cons, Nat.succ_lt_succ_iff] at h
      simp [eraseAt, ih m h]

theorem length_removeFirstTag {name : String} {cs : List Element} {c : Element}
    (h : findFirstTag name cs = some c) :
    (removeFirstTag name cs).length + 1 = cs.length := by
  induction cs with
  | nil => cases h
  | cons d rest ih =>
    by_cases hd : d.tag = name
    · simp [removeFirstTag, hd]
    · simp only [findFirstTag, hd, if_neg, if_false] at h
      simp [removeFirstTag, hd, ih h]

theorem length_replaceFirstTag (name : String) (e : Element) (cs : List Element) :
    (replaceFirstTag name e cs).length = cs.length := by
  induction cs with
  | nil => rfl
  | cons d rest ih =>
    by_cases hd : d.tag = name
    · simp [replaceFirstTag, hd]
    · simp [replaceFirstTag, hd, ih]

/-- Removing the first element of one tag does not disturb the first
element of a different tag. -/
theorem findFirstTag_removeFirstTag {n1 : String} (n2 : String) {cs : List Element}
    (hne : n2 ≠ n1) :
    findFirstTag n2 (removeFirstTag n1 cs) = findFirstTag n2 cs := by
  have hne' : n1 ≠ n2 := fun hh => hne hh.symm
  induction cs with
  | nil => rfl
  | cons d rest ih =>
    by_cases hd : d.tag = n1
    · simp [removeFirstTag, findFirstTag, hd, hne']
    · by_cases hd2 : d.tag = n2
      · simp [removeFirstTag, findFirstTag, hd, hd2, hne]
      · simp [removeFirstTag, findFirstTag, hd, hd2, ih]

/-- Replacing the first element of a tag by an element carrying the same
tag makes that element the first match. -/
theorem findFirstTag_replaceFirstTag {name : String} {cs : List Element} {c : Element}
    (e : Element) (he : e.tag = name) (h : findFirstTag name cs = some c) :
    findFirstTag name (replaceFirstTag name e cs) = some e := by
  induction cs with
  | nil => cases h
  | cons d rest ih =>
    by_cases hd : d.tag = name
    · simp [replaceFirstTag, findFirstTag, hd, he]
    · simp only [findFirstTag, hd, if_neg, if_false] at h
      simp [replaceFirstTag, findFirstTag, hd, ih h]

/-- Setting the text of the first element of one tag does not disturb the
first element of a different tag. -/
theorem findFirstTag_setTextFirstTag {n1 : String} (n2 : String) (t : Option String)
    {cs : List Element} (hne : n2 ≠ n1) :
    findFirstTag n2 (setTextFirstTag n1 t cs) = findFirstTag n2 cs := by
  have hne' : n1 ≠ n2 := fun hh => hne hh.symm
  induction cs with
  | nil => rfl
  | cons d rest ih =>
    by_cases hd : d.tag = n1
    · simp [setTextFirstTag, findFirstTag, hd, hne']
    · by_cases hd2 : d.tag = n2
      · simp [setTextFirstTag, findFirstTag, hd, hd2, hne]
      · simp [setTextFirstTag, findFirstTag, hd, hd2, ih]

/-- After setting the text of the first element of a tag, the first
element of that tag is the old one with its text replaced. -/
theorem findFirstTag_setTextFirstTag_self {name : String} (t : Option String)
    {cs : List Element} {c : Element} (h : findFirstTag name cs = some c) :
    findFirstTag name (setTextFirstTag name t cs) = some (c.setText t) := by
  induction cs with
  | nil => cases h
  | cons d rest ih =>
    by_cases hd : d.tag = name
    · simp only [findFirstTag, hd, if_pos] at h
      cases h
      simp [setTextFirstTag, findFirstTag, hd]
    · simp only [findFirstTag, hd, if_neg, if_false] at h
      simp [setTextFirstTag, findFirstTag, hd, ih h]

theorem length_setTextFirstTag (name : String) (t : Option String) (cs : List Element) :
    (setTextFirstTag name t cs).length = cs.length := by
  induction cs with
  | nil => rfl
  | cons d rest ih =>
    by_cases hd : d.tag = name
    · simp [setTextFirstTag, hd]
    · simp [setTextFirstTag, hd, ih]

/-- Positions other than the first match of the tag are untouched by the
text update. -/
theorem nth_setTextFirstTag_ne (name : String) (t : Option String) (cs : List Element)
    (j : Nat) (hj : firstTagIdx name cs ≠ some j) :
    nth (setTextFirstTag name t cs) j = nth cs j := by
  induction cs generalizing j with
  | nil => rfl
  | cons d rest ih =>
    by_cases hd : d.tag = name
    · simp only [firstTagIdx, hd, if_pos] at hj
      cases j with
      | zero => exact absurd rfl hj
      | succ m => simp [setTextFirstTag, hd]
    · simp only [firstTagIdx, hd, if_neg, if_false] at hj
      cases j with
      | zero => simp [setTextFirstTag, hd]
      | succ m =>
        have : firstTagIdx name rest ≠ some m := by
          intro hh
          exact hj (by simp [hh])
        simp [setTextFirstTag, hd, ih m this]

/-- The first match of a tag sits at the first index of that tag. -/
theorem firstTagIdx_findFirstTag {name : String} {cs : List Element} {c : Element}
    (h : findFirstTag name cs = some c) :
    ∃ j, firstTagIdx name cs = some j ∧ nth cs j = some c := by
  induction cs with
  | nil => cases h
  | cons d rest ih =>
    by_cases hd : d.tag = name
    · simp only [findFirstTag, hd, if_pos] at h
      cases h
      exact ⟨0, by simp [firstTagIdx, hd], rfl⟩
    · simp only [findFirstTag, hd, if_neg, if_false] at h
      obtain ⟨j, hj1, hj2⟩ := ih h
      exact ⟨j + 1, by simp [firstTagIdx, hd, hj1], by simpa using hj2⟩

/-- One iteration body of the cabin-occupancy loop (lines 199-215):
look up the farmhand's `name` child; a `KeyError` records `None`
(unoccupied slot); a present `name` element whose text is `None` is a
fatal error with exit status 3; otherwise the text is recorded. -/
def entryNameResult (fh : Element) : Except Nat (Option String) :=
  match xml_find_one_child fh "name" none with
  | .error _ => .ok none
  | .ok ne =>
    match ne.text with
    | none => .error 3
    | some s => .ok (some s)

/-- The cabin-occupancy `while` loop over the farmhand entries, building
`farmhand_names`.  `sys.exit(3)` inside the loop aborts the whole run. -/
def extractNames : List Element → Except Nat (List (Option String))
  | [] => .ok []
  | fh :: rest =>
    match entryNameResult fh with
    | .error c => .error c
    | .ok r =>
      match extractNames rest with
      | .error c => .error c
      | .ok names => .ok (r :: names)

/-- The roster display loop (lines 222-228): `i` is incremented before
printing, empty slots are skipped, occupied slots print their 1-based
index with the recorded name. -/
def displayLoop (i : Nat) : List (Option String) → List (Nat × String)
  | [] => []
  | none :: rest => displayLoop (i + 1) rest
  | some s :: rest => (i + 1, s) :: displayLoop (i + 1) rest

/-- A console interaction at the slot prompt, abstracted past `int(input(...))`:
either the read raised `KeyboardInterrupt`, or `int()` raised `ValueError`,
or an integer was obtained. -/
inductive SelInput where
  | interrupt
  | notAnInt
  | anInt (n : Int)

inductive SelResult where
  | pending
  | exit0
  | selected (i : Nat) (tfh : Element)

/-- The slot-selection `while` loop (lines 231-265), run over a finite
list of console interactions; `pending` means the inputs were exhausted
with the loop still prompting.  Mirrors the source order: parse, the
non-positive check, the 1-based to 0-based conversion, the two indexings
(either can raise `IndexError`), then the empty-cabin check. -/
def selLoop (names : List (Option String)) (fhs : List Element) :
    List SelInput → SelResult
  | [] => .pending
  | .interrupt :: _ => .exit0
  | .notAnInt :: rest => selLoop names fhs rest
  | .anInt n :: rest =>
    if n ≤ 0 then selLoop names fhs rest
    else
      match nth names (n - 1).toNat with
      | none => selLoop names fhs rest
      | some nameSlot =>
        match nth fhs (n - 1).toNat with
        | none => selLoop names fhs rest
        | some tfh =>
          match nameSlot with
          | none => selLoop names fhs rest
          | some _ => .selected (n - 1).toNat tfh

/-- A console interaction at the confirmation prompt: `KeyboardInterrupt`
during `input`, or a line of text. -/
inductive ConfInput where
  | interrupt
  | line (s : String)

inductive ConfResult where
  | pending
  | exit0
  | yes
  | no

/-- `continue_response.upper()`: uppercase each character. -/
def strUpper (s : String) : String := ⟨s.data.map Char.toUpper⟩

/-- The confirmation `while` loop (lines 284-298): uppercase the answer;
`Y` proceeds, `N` records `do_continue = False`, anything else re-prompts. -/
def confLoop : List ConfInput → ConfResult
  | [] => .pending
  | .interrupt :: _ => .exit0
  | .line s :: rest =>
    if strUpper s = "Y" then .yes
    else if strUpper s = "N" then .no
    else confLoop rest

/-- The six-step in-memory mutation sequence (lines 307-340), given the
already-located `player` (first `player` child of the root), `farmhands`
(first `farmhands` child of the root), and the selected farmhand `tfh`
sitting at index `i` of the container.  Fails with exit status 3 when a
`homeLocation` lookup raises (lines 324-329). -/
def doMutation (root player farmhands : Element) (i : Nat) (tfh : Element) :
    Except Nat Element :=
  let rootKids1 := removeFirstTag "player" root.children
  let fhKids1 := eraseAt farmhands.children i
  let player1 := player.setTag "Farmer"
  let tfh1 := tfh.setTag "player"
  match xml_find_one_child player1 "homeLocation" none with
  | .error _ => .error 3
  | .ok phl =>
    match xml_find_one_child tfh1 "homeLocation" none with
    | .error _ => .error 3
    | .ok thl =>
      let player2 := player1.setChildren (setTextFirstTag "homeLocation" thl.text player1.children)
      let tfh2 := tfh1.setChildren (setTextFirstTag "homeLocation" phl.text tfh1.children)
      let newFarmhands := farmhands.setChildren (fhKids1 ++ [player2])
      let rootKids2 := replaceFirstTag "farmhands" newFarmhands rootKids1
      .ok (root.setChildren (tfh2 :: rootKids2))

/-- Contents of a file: either raw bytes, or the serialization of a
document tree as produced by `game_tree.write` (with the pretty-print flag). -/
inductive FileData where
  | raw (s : String)
  | xml (root : Element) (pretty : Bool)

/-- One entry of the save directory, as `save_dir.iterdir()` yields it. -/
structure DirEntry where
  mk ::
  name : String
  isFile : Bool
  data : FileData

def fsLookup (n : String) : List DirEntry → Option FileData
  | [] => none
  | e :: rest => if e.name = n then some e.data else fsLookup n rest

def fsErase (n : String) : List DirEntry → List DirEntry
  | [] => []
  | e :: rest => if e.name = n then fsErase n rest else e :: fsErase n rest

/-- Creating or overwriting a file. -/
def fsWrite (n : String) (d : FileData) (fs : List DirEntry) : List DirEntry :=
  ⟨n, true, d⟩ :: fsErase n fs

/-- POSIX `rename(2)`, as `pathlib.Path.rename` performs it: an existing
file at the destination is silently replaced.  The source is present
whenever the pipeline calls this (the save file was found earlier). -/
def fsRename (src dst : String) (fs : List DirEntry) : List DirEntry :=
  match fsLookup src fs with
  | none => fs
  | some d => fsWrite dst d (fsErase src fs)

/-- The persist step (lines 344-353): rename the save file to
`name + ".orig"`, then write the mutated tree to the original path. -/
def persistStep (dirName : String) (pretty : Bool) (newRoot : Element)
    (fs : List DirEntry) : List DirEntry :=
  fsWrite dirName (.xml newRoot pretty) (fsRename dirName (dirName ++ ".orig") fs)

/-- The `for f in save_dir.iterdir()` scan (lines 78-88): the flag records
whether a `SaveGameInfo` regular file was seen; the save-file slot is
overwritten by each regular file named like the directory (`elif`, so a
`SaveGameInfo` entry never lands in the save-file slot). -/
def scanDir (dirName : String) : List DirEntry → Bool → Option DirEntry → Bool × Option DirEntry
  | [], found, save => (found, save)
  | f :: rest, found, save =>
    if f.name = "SaveGameInfo" ∧ f.isFile then scanDir dirName rest true save
    else if f.name = dirName ∧ f.isFile then scanDir dirName rest found (some f)
    else scanDir dirName rest found save

/-- The whole observable state a run of the script consumes: the outcome
of the path checks, the resolved directory name, the directory contents,
the parse outcome for the save file, the output-format flag, and the
console interactions at the two prompts. -/
structure World where
  mk ::
  pathExists : Bool
  pathIsDir : Bool
  dirName : String
  fs : List DirEntry
  parse : Option Element
  xmlFormat : Bool
  selectInputs : List SelInput
  confirmInputs : List ConfInput

/-- How a run ends: a `sys.exit` (or falling off the end) with an exit
status and the final directory contents, or exhaustion of the supplied
console inputs while a prompt loop was still running. -/
inductive Outcome where
  | exited (code : Nat) (fs : List DirEntry)
  | outOfInput (fs : List DirEntry)

/-- Lines 153-215: parse, root-tag check, locating player / player name /
farmhands, and the occupancy extraction.  Every failure is `sys.exit(3)`. -/
def xmlStage (w : World) :
    Except Nat (Element × Element × String × Element × List (Option String)) :=
  match w.parse with
  | none => .error 3
  | some root =>
    if root.tag ≠ "SaveGame" then .error 3
    else
      match xml_find_one_child root "player" none with
      | .error _ => .error 3
      | .ok player =>
        match xml_find_one_child player "name" none with
        | .error _ => .error 3
        | .ok nameEl =>
          match nameEl.text with
          | none => .error 3
          | some pname =>
            match xml_find_one_child root "farmhands" none with
            | .error _ => .error 3
            | .ok farmhands =>
              match extractNames farmhands.children with
              | .error c => .error c
              | .ok names => .ok (root, player, pname, farmhands, names)

/-- Confirmation prompt, mutation and persist (lines 284-356). -/
def afterConfirmStep (w : World) (root player farmhands : Element) (i : Nat)
    (tfh : Element) : Outcome :=
  match confLoop w.confirmInputs with
  | .pending => .outOfInput w.fs
  | .exit0 => .exited 0 w.fs
  | .no => .exited 0 w.fs
  | .yes =>
    match doMutation root player farmhands i tfh with
    | .error c => .exited c w.fs
    | .ok newRoot => .exited 0 (persistStep w.dirName w.xmlFormat newRoot w.fs)

/-- Slot selection onward (lines 231-356). -/
def afterSelect (w : World) (root player farmhands : Element)
    (names : List (Option String)) : Outcome :=
  match selLoop names farmhands.children w.selectInputs with
  | .pending => .outOfInput w.fs
  | .exit0 => .exited 0 w.fs
  | .selected i tfh => afterConfirmStep w root player farmhands i tfh

/-- The whole script, lines 62-356: path checks (exit 1), directory scan
(exit 2), XML stage (exit 3), prompts, mutation, persist. -/
def runProgram (w : World) : Outcome :=
  if w.pathExists = false then .exited 1 w.fs
  else if w.pathIsDir = false then .exited 1 w.fs
  else
    let scan := scanDir w.dirName w.fs false none
    if scan.1 = false then .exited 2 w.fs
    else
      match scan.2 with
      | none => .exited 2 w.fs
      | some _ =>
        match xmlStage w with
        | .error c => .exited c w.fs
        | .ok (root, player, _pname, farmhands, names) =>
          afterSelect w root player farmhands names

/-- A parent holding two same-tag children, the input on which the
duplicate detection of `xml_find_one_child` is claimed to fire. -/
def dupChildA : Element := .mk "player" [] (some "first") []

def dupChildB : Element := .mk "player" [] (some "second") []

def dupParent : Element := .mk "SaveGame" [] none [dupChildA, dupChildB]

def dupAttrChildA : Element := .mk "Building" [("id", "1")] (some "firstCab") []

def dupAttrChildB : Element := .mk "Building" [("id", "1")] (some "secondCab") []

def dupAttrParent : Element := .mk "buildings" [] none [dupAttrChildA, dupAttrChildB]

def emptySave : Element := .mk "SaveGame" [] none []

/-- C1: the claim says the finder fails with the "duplicate structural
element" error when two or more direct children match, but the `break`
placed immediately after recording a match makes both `raise
KeyError("Found multiple ...")` branches unreachable: with or without an
attribute filter, the finder silently returns the first matching child of
a parent that has two matching children, and the only error it can ever
raise is the not-found one. -/
theorem claim_C1_duplicate_check_dead :
    xml_find_one_child dupParent "player" none = .ok dupChildA ∧
    xml_find_one_child dupAttrParent "Building" (some ("id", "1")) = .ok dupAttrChildA ∧
    ∀ (e : Element) (name : String) (attrib : Option (String × String)) (err : FindError),
      xml_find_one_child e name attrib = .error err → err = .notFound name e.tag := by
  refine ⟨rfl, rfl, ?_⟩
  intro e name attrib err h
  exact xml_find_one_child_error_is_notFound e name attrib err h

/-- Witness for C1: the error branch of the finder instantiated on a
childless root, where the lookup raises the not-found error. -/
theorem claim_C1_witness :
    FindError.notFound "player" "SaveGame" = .notFound "player" emptySave.tag :=
  claim_C1_duplicate_check_dead.2.2 emptySave "player" none
    (.notFound "player" "SaveGame") rfl

/-- The spec's end-to-end scenario document: player Alice at the Farm,
farmhand slot 1 holding Bob at the Beach, slot 2 unoccupied (no name). -/
def hlAlice : Element := .mk "homeLocation" [] (some "Farm") []

def nameAlice : Element := .mk "name" [] (some "Alice") []

def samplePlayer : Element := .mk "player" [] none [nameAlice, hlAlice]

def hlBob : Element := .mk "homeLocation" [] (some "Beach") []

def nameBob : Element := .mk "name" [] (some "Bob") []

def sampleHand : Element := .mk "Farmer" [] none [nameBob, hlBob]

def emptyHand : Element := .mk "Farmer" [] none []

def sampleFarmhands : Element := .mk "farmhands" [] none [sampleHand, emptyHand]

def sampleRoot : Element := .mk "SaveGame" [] none [samplePlayer, sampleFarmhands]

/-- A valid save directory: the `SaveGameInfo` marker and the save file
named after the directory. -/
def sampleDir : List DirEntry :=
  [⟨"SaveGameInfo", true, .raw "info"⟩, ⟨"Save1", true, .raw "OLDXML"⟩]

def sampleWorld : World :=
  ⟨true, true, "Save1", sampleDir, some sampleRoot, false, [.anInt 1], [.line "Y"]⟩

/-- Once the path checks, the directory scan and the XML stage have all
passed, the run is the prompt-and-mutate tail. -/
theorem runProgram_reach (w : World) (root player : Element) (pname : String)
    (farmhands : Element) (names : List (Option String)) (e : DirEntry)
    (hp : w.pathExists = true) (hd : w.pathIsDir = true)
    (hscan1 : (scanDir w.dirName w.fs false none).1 = true)
    (hscan2 : (scanDir w.dirName w.fs false none).2 = some e)
    (hxml : xmlStage w = .ok (root, player, pname, farmhands, names)) :
    runProgram w = afterSelect w root player farmhands names := by
  unfold runProgram
  simp [hp, hd, hscan1, hscan2, hxml]

/-- An input the slot-selection loop rejects: a failed `int()` parse, a
non-positive number, an index outside the roster (of names or of farmhand
elements), or an unoccupied slot. -/
def selInvalid (names : List (Option String)) (fhs : List Element) : SelInput → Prop
  | .interrupt => False
  | .notAnInt => True
  | .anInt n =>
    n ≤ 0 ∨ nth names (n - 1).toNat = none ∨ nth fhs (n - 1).toNat = none ∨
      nth names (n - 1).toNat = some none

/-- A selection is only ever made at an occupied, in-range slot. -/
theorem selLoop_selected_sound :
    ∀ (inputs : List SelInput) (names : List (Option String)) (fhs : List Element)
      (i : Nat) (tfh : Element),
      selLoop names fhs inputs = .selected i tfh →
      ∃ s, nth names i = some (some s) ∧ nth fhs i = some tfh := by
  intro inputs
  induction inputs with
  | nil =>
    intro names fhs i tfh h
    simp [selLoop] at h
  | cons inp rest ih =>
    intro names fhs i tfh h
    match inp with
    | .interrupt => simp [selLoop] at h
    | .notAnInt => exact ih names fhs i tfh (by simpa [selLoop] using h)
    | .anInt n =>
      simp only [selLoop] at h
      by_cases hn : n ≤ 0
      · rw [if_pos hn] at h
        exact ih names fhs i tfh h
      · rw [if_neg hn] at h
        cases hname : nth names (n - 1).toNat with
        | none =>
          rw [hname] at h
          exact ih names fhs i tfh h
        | some nameSlot =>
          rw [hname] at h
          cases hfh : nth fhs (n - 1).toNat with
          | none =>
            rw [hfh] at h
            exact ih names fhs i tfh h
          | some tfh2 =>
            rw [hfh] at h
            cases nameSlot with
            | none => exact ih names fhs i tfh h
            | some s =>
              simp only at h
              cases h
              exact ⟨s, hname, hfh⟩

/-- C5: the slot-selection prompt loop.  A keyboard interrupt at the
prompt ends the whole run with exit status 0; every invalid input (failed
parse, non-positive, out-of-range for either list, unoccupied slot) makes
the loop behave exactly as if the input had not occurred, mutating
nothing and exiting nothing; any selection the loop produces is an
occupied in-range slot; and a positive in-range occupied choice is
selected at its 0-based index. -/
theorem claim_C5_selection_loop :
    (∀ (names : List (Option String)) (fhs : List Element) (rest : List SelInput),
      selLoop names fhs (.interrupt :: rest) = .exit0) ∧
    (∀ (w : World) (root player : Element) (pname : String) (farmhands : Element)
       (names : List (Option String)) (e : DirEntry) (rest : List SelInput),
      w.pathExists = true → w.pathIsDir = true →
      (scanDir w.dirName w.fs false none).1 = true →
      (scanDir w.dirName w.fs false none).2 = some e →
      xmlStage w = .ok (root, player, pname, farmhands, names) →
      w.selectInputs = .interrupt :: rest →
      runProgram w = .exited 0 w.fs) ∧
    (∀ (names : List (Option String)) (fhs : List Element) (inp : SelInput)
       (rest : List SelInput), selInvalid names fhs inp →
      selLoop names fhs (inp :: rest) = selLoop names fhs rest) ∧
    (∀ (inputs : List SelInput) (names : List (Option String)) (fhs : List Element)
       (i : Nat) (tfh : Element),
      selLoop names fhs inputs = .selected i tfh →
      ∃ s, nth names i = some (some s) ∧ nth fhs i = some tfh) ∧
    (∀ (names : List (Option String)) (fhs : List Element) (n : Int)
       (rest : List SelInput) (s : String) (tfh : Element),
      0 < n → nth names (n - 1).toNat = some (some s) →
      nth fhs (n - 1).toNat = some tfh →
      selLoop names fhs (.anInt n :: rest) = .selected (n - 1).toNat tfh) := by
  refine ⟨fun names fhs rest => rfl, ?_, ?_, selLoop_selected_sound, ?_⟩
  · intro w root player pname farmhands names e rest hp hd h1 h2 hxml hsel
    rw [runProgram_reach w root player pname farmhands names e hp hd h1 h2 hxml]
    unfold afterSelect
    rw [hsel]
    rfl
  · intro names fhs inp rest hinv
    match inp with
    | .interrupt => cases hinv
    | .notAnInt => rfl
    | .anInt n =>
      simp only [selLoop]
      by_cases hn : n ≤ 0
      · rw [if_pos hn]
      · rw [if_neg hn]
        rcases hinv with hn2 | hname | hfh | hempty
        · exact absurd hn2 hn
        · rw [hname]
        · cases hname : nth names (n - 1).toNat with
          | none => rfl
          | some nameSlot => rw [hfh]
        · rw [hempty]
          cases nth fhs (n - 1).toNat <;> rfl
  · intro names fhs n rest s tfh hn hname hfh
    have hn' : ¬ n ≤ 0 := by omega
    simp only [selLoop]
    rw [if_neg hn', hname, hfh]

def wInterrupt : World :=
  ⟨true, true, "Save1", sampleDir, some sampleRoot, false, [.interrupt], []⟩

/-- Witness for C5: on the scenario document, interrupting the prompt
exits with status 0 leaving the directory untouched; input "2" (the
empty slot) re-prompts; input "1" selects Bob's slot. -/
theorem claim_C5_witness :
    runProgram wInterrupt = .exited 0 wInterrupt.fs ∧
    selLoop [some "Bob", none] [sampleHand, emptyHand] [.anInt 2] =
      selLoop [some "Bob", none] [sampleHand, emptyHand] [] ∧
    selLoop [some "Bob", none] [sampleHand, emptyHand] [.anInt 1] =
      .selected 0 sampleHand := by
  refine ⟨?_, ?_, ?_⟩
  · exact claim_C5_selection_loop.2.1 wInterrupt sampleRoot samplePlayer "Alice"
      sampleFarmhands [some "Bob", none] ⟨"Save1", true, .raw "OLDXML"⟩ []
      rfl rfl rfl rfl rfl rfl
  · exact claim_C5_selection_loop.2.2.1 [some "Bob", none] [sampleHand, emptyHand]
      (.anInt 2) [] (Or.inr (Or.inr (Or.inr rfl)))
  · exact claim_C5_selection_loop.2.2.2.2 [some "Bob", none] [sampleHand, emptyHand]
      1 [] "Bob" sampleHand (by decide) rfl rfl

/-- C6: answering the confirmation prompt with `N` (either case, via
`.upper()`) ends the run with exit status 0 and the directory contents
exactly as they were — no write, no backup; and any answer that uppercases
to neither `Y` nor `N` leaves the confirmation loop exactly where it was,
so it only re-prompts. -/
theorem claim_C6_confirmation_no :
    (∀ (w : World) (root player : Element) (pname : String) (farmhands : Element)
       (names : List (Option String)) (e : DirEntry) (i : Nat) (tfh : Element)
       (s : String) (rest : List ConfInput),
      w.pathExists = true → w.pathIsDir = true →
      (scanDir w.dirName w.fs false none).1 = true →
      (scanDir w.dirName w.fs false none).2 = some e →
      xmlStage w = .ok (root, player, pname, farmhands, names) →
      selLoop names farmhands.children w.selectInputs = .selected i tfh →
      w.confirmInputs = .line s :: rest →
      strUpper s = "N" →
      runProgram w = .exited 0 w.fs) ∧
    (∀ (s : String) (rest : List ConfInput),
      strUpper s ≠ "Y" → strUpper s ≠ "N" →
      confLoop (.line s :: rest) = confLoop rest) := by
  constructor
  · intro w root player pname farmhands names e i tfh s rest hp hd h1 h2 hxml hsel hconf hN
    rw [runProgram_reach w root player pname farmhands names e hp hd h1 h2 hxml]
    unfold afterSelect
    rw [hsel]
    unfold afterConfirmStep
    rw [hconf]
    simp only [confLoop, hN]
    simp
  · intro s rest hY hN
    simp only [confLoop]
    rw [if_neg hY, if_neg hN]

def wNo : World :=
  ⟨true, true, "Save1", sampleDir, some sampleRoot, false, [.anInt 1], [.line "n"]⟩

/-- Witness for C6: on the scenario document, selecting slot 1 and
answering lowercase "n" exits with status 0 and the untouched directory;
the answer "maybe" merely re-prompts. -/
theorem claim_C6_witness :
    runProgram wNo = .exited 0 wNo.fs ∧
    confLoop [.line "maybe"] = confLoop [] := by
  constructor
  · exact claim_C6_confirmation_no.1 wNo sampleRoot samplePlayer "Alice"
      sampleFarmhands [some "Bob", none] ⟨"Save1", true, .raw "OLDXML"⟩ 0 sampleHand
      "n" [] rfl rfl rfl rfl rfl rfl rfl (by decide)
  · exact claim_C6_confirmation_no.2 "maybe" [] (by decide) (by decide)

theorem extractNames_length :
    ∀ (kids : List Element) (names : List (Option String)),
      extractNames kids = .ok names → names.length = kids.length := by
  intro kids
  induction kids with
  | nil =>
    intro names h
    simp only [extractNames] at h
    cases h
    rfl
  | cons fh rest ih =>
    intro names h
    simp only [extractNames] at h
    cases hr : entryNameResult fh with
    | error c => rw [hr] at h; cases h
    | ok r =>
      rw [hr] at h
      cases hrest : extractNames rest with
      | error c => rw [hrest] at h; cases h
      | ok ns =>
        rw [hrest] at h
        cases h
        simp [ih ns hrest]

theorem extractNames_nth :
    ∀ (kids : List Element) (names : List (Option String)),
      extractNames kids = .ok names →
      ∀ (j : Nat) (fh : Element), nth kids j = some fh →
        ∃ r, entryNameResult fh = .ok r ∧ nth names j = some r := by
  intro kids
  induction kids with
  | nil =>
    intro names _ j fh hj
    simp at hj
  | cons fh0 rest ih =>
    intro names h j fh hj
    simp only [extractNames] at h
    cases hr : entryNameResult fh0 with
    | error c => rw [hr] at h; cases h
    | ok r =>
      rw [hr] at h
      cases hrest : extractNames rest with
      | error c => rw [hrest] at h; cases h
      | ok ns =>
        rw [hrest] at h
        cases h
        cases j with
        | zero =>
          cases hj
          exact ⟨r, hr, rfl⟩
        | succ m => exact ih ns hrest m fh (by simpa using hj)

theorem entryNameResult_only_error (fh : Element) (c : Nat)
    (h : entryNameResult fh = .error c) : c = 3 := by
  unfold entryNameResult at h
  cases hf : xml_find_one_child fh "name" none with
  | error e => rw [hf] at h; cases h
  | ok ne =>
    simp only [hf] at h
    cases ht : ne.text with
    | none =>
      rw [ht] at h
      cases h
      rfl
    | some s => rw [ht] at h; cases h

theorem extractNames_error_of_bad :
    ∀ (kids : List Element) (j : Nat) (fh : Element),
      nth kids j = some fh → entryNameResult fh = .error 3 →
      extractNames kids = .error 3 := by
  intro kids
  induction kids with
  | nil =>
    intro j fh hj
    simp at hj
  | cons fh0 rest ih =>
    intro j fh hj hbad
    simp only [extractNames]
    cases j with
    | zero =>
      cases hj
      rw [hbad]
    | succ m =>
      cases hr : entryNameResult fh0 with
      | error c =>
        simp only [hr]
        rw [entryNameResult_only_error fh0 c hr]
      | ok r =>
        simp only [hr]
        rw [ih m fh (by simpa using hj) hbad]

theorem displayLoop_mem :
    ∀ (names : List (Option String)) (i k : Nat) (s : String),
      (k, s) ∈ displayLoop i names ↔
        ∃ j, nth names j = some (some s) ∧ k = i + j + 1 := by
  intro names
  induction names with
  | nil => simp [displayLoop]
  | cons a rest ih =>
    intro i k s
    cases a with
    | none =>
      simp only [displayLoop]
      rw [ih (i + 1) k s]
      constructor
      · rintro ⟨j, hj, rfl⟩
        exact ⟨j + 1, by simpa using hj, by omega⟩
      · rintro ⟨j, hj, hk⟩
        cases j with
        | zero => simp at hj
        | succ m =>
          exact ⟨m, by simpa using hj, by omega⟩
    | some s0 =>
      simp only [displayLoop, List.mem_cons]
      rw [ih (i + 1) k s]
      constructor
      · rintro (heq | ⟨j, hj, rfl⟩)
        · have hk : k = i + 1 := congrArg Prod.fst heq
          have hs : s = s0 := congrArg Prod.snd heq
          subst hk
          subst hs
          exact ⟨0, rfl, by omega⟩
        · exact ⟨j + 1, by simpa using hj, by omega⟩
      · rintro ⟨j, hj, hk⟩
        cases j with
        | zero =>
          left
          simp only [nth_cons_zero, Option.some.injEq] at hj
          rw [hj, hk]
        | succ m =>
          right
          exact ⟨m, by simpa using hj, by omega⟩

/-- C8: when the occupancy extraction completes, it has walked the roster
in order producing one record per entry; an entry whose `name` lookup
raises `KeyError` is recorded as `None` rather than aborting; and the
listing loop prints exactly the occupied entries, each under the 1-based
index of its roster position. -/
theorem claim_C8_extraction_and_listing :
    ∀ (kids : List Element) (names : List (Option String)),
      extractNames kids = .ok names →
      names.length = kids.length ∧
      (∀ (j : Nat) (fh : Element), nth kids j = some fh →
        ∃ r, entryNameResult fh = .ok r ∧ nth names j = some r) ∧
      (∀ (fh : Element) (err : FindError),
        xml_find_one_child fh "name" none = .error err →
        entryNameResult fh = .ok none) ∧
      (∀ (k : Nat) (s : String), (k, s) ∈ displayLoop 0 names ↔
        ∃ j, nth names j = some (some s) ∧ k = j + 1) := by
  intro kids names h
  refine ⟨extractNames_length kids names h, extractNames_nth kids names h, ?_, ?_⟩
  · intro fh err herr
    unfold entryNameResult
    rw [herr]
  · intro k s
    rw [displayLoop_mem names 0 k s]
    constructor
    · rintro ⟨j, hj, hk⟩
      exact ⟨j, hj, by omega⟩
    · rintro ⟨j, hj, hk⟩
      exact ⟨j, hj, by omega⟩

/-- Witness for C8: on the scenario roster (Bob occupied, slot 2 empty),
the extraction records `None` for the empty slot, and the listing is
exactly entry 1 with Bob's name. -/
theorem claim_C8_witness :
    ∃ r, entryNameResult emptyHand = .ok r ∧ nth [some "Bob", none] 1 = some r :=
  (claim_C8_extraction_and_listing [sampleHand, emptyHand] [some "Bob", none] rfl).2.1
    1 emptyHand rfl

/-- C9: a farmhand entry holding a `name` child element whose text is
`None` is not treated as an unoccupied slot: before either prompt is
consulted (whatever console input would have been supplied), the run ends
fatally with exit status 3 and the directory untouched.  An entry with no
`name` child at all, by contrast, is recorded as `None` (unoccupied). -/
theorem claim_C9_empty_name_fatal :
    ∀ (pe pd : Bool) (dn : String) (fs : List DirEntry) (pr : Option Element)
      (fmt : Bool) (e : DirEntry) (root player nameEl : Element) (pname : String)
      (farmhands : Element) (j : Nat) (fh ne : Element),
      pe = true → pd = true →
      (scanDir dn fs false none).1 = true →
      (scanDir dn fs false none).2 = some e →
      pr = some root → root.tag = "SaveGame" →
      xml_find_one_child root "player" none = .ok player →
      xml_find_one_child player "name" none = .ok nameEl →
      nameEl.text = some pname →
      xml_find_one_child root "farmhands" none = .ok farmhands →
      nth farmhands.children j = some fh →
      xml_find_one_child fh "name" none = .ok ne →
      ne.text = none →
      (∀ (si : List SelInput) (ci : List ConfInput),
        runProgram ⟨pe, pd, dn, fs, pr, fmt, si, ci⟩ = .exited 3 fs) ∧
      (∀ (fh2 : Element) (err : FindError),
        xml_find_one_child fh2 "name" none = .error err →
        entryNameResult fh2 = .ok none) := by
  intro pe pd dn fs pr fmt e root player nameEl pname farmhands j fh ne
  intro hpe hpd hs1 hs2 hpr hroot hplayer hname htext hfarm hj hfind hnone
  subst hpe
  subst hpd
  have hbad : entryNameResult fh = .error 3 := by
    unfold entryNameResult
    rw [hfind]
    simp only [hnone]
  have hext : extractNames farmhands.children = .error 3 :=
    extractNames_error_of_bad farmhands.children j fh hj hbad
  constructor
  · intro si ci
    have hxml : xmlStage ⟨true, true, dn, fs, pr, fmt, si, ci⟩ = .error 3 := by
      unfold xmlStage
      simp only [hpr]
      rw [if_neg (by simp [hroot])]
      simp only [hplayer, hname, htext, hfarm, hext]
    unfold runProgram
    simp [hs1, hs2, hxml]
  · intro fh2 err herr
    unfold entryNameResult
    rw [herr]

/-- A roster whose slot 2 entry carries an empty `name` element. -/
def emptyNameEl : Element := .mk "name" [] none []

def badHand : Element := .mk "Farmer" [] none [emptyNameEl]

def badFarmhands : Element := .mk "farmhands" [] none [sampleHand, badHand]

def badRoot : Element := .mk "SaveGame" [] none [samplePlayer, badFarmhands]

/-- Witness for C9: a save whose second farmhand has an empty `name`
element makes the run exit with status 3 whatever would have been typed
at the prompts, leaving the directory as it was. -/
theorem claim_C9_witness :
    runProgram ⟨true, true, "Save1", sampleDir, some badRoot, false,
      [.anInt 1], [.line "Y"]⟩ = .exited 3 sampleDir :=
  (claim_C9_empty_name_fatal true true "Save1" sampleDir (some badRoot) false
    ⟨"Save1", true, .raw "OLDXML"⟩ badRoot samplePlayer nameAlice "Alice"
    badFarmhands 1 badHand emptyNameEl
    rfl rfl rfl rfl rfl rfl rfl rfl rfl rfl rfl rfl rfl).1 [.anInt 1] [.line "Y"]

/-- C3: on any document whose root is `SaveGame` with a located player
(first `player` child, holding `name` and `homeLocation` children) and a
located farmhands container whose slot `i` holds a farmhand with a
`homeLocation` child, the confirmed mutation sequence succeeds and
produces a document in which: the selected farmhand, retagged `player`,
is the new first child of the root; the former player, retagged `Farmer`,
is appended as the last entry of the farmhands container, the other
entries keeping their contents and relative order; the two
`homeLocation` texts are exactly exchanged; and each element otherwise
keeps its own attributes, text, and children (including its `name`). -/
theorem claim_C3_swap_structure :
    ∀ (root player farmhands tfh phl thl : Element) (i : Nat),
      root.tag = "SaveGame" →
      findFirstTag "player" root.children = some player →
      findFirstTag "farmhands" root.children = some farmhands →
      findFirstTag "name" player.children ≠ none →
      nth farmhands.children i = some tfh →
      findFirstTag "homeLocation" player.children = some phl →
      findFirstTag "homeLocation" tfh.children = some thl →
      ∃ newRoot,
        doMutation root player farmhands i tfh = .ok newRoot ∧
        (∃ tfh2, nth newRoot.children 0 = some tfh2 ∧
          tfh2.tag = "player" ∧ tfh2.attrib = tfh.attrib ∧ tfh2.text = tfh.text ∧
          findFirstTag "homeLocation" tfh2.children = some (thl.setText phl.text) ∧
          (∀ nm, nm ≠ "homeLocation" →
            findFirstTag nm tfh2.children = findFirstTag nm tfh.children) ∧
          tfh2.children.length = tfh.children.length ∧
          (∀ j, firstTagIdx "homeLocation" tfh.children ≠ some j →
            nth tfh2.children j = nth tfh.children j)) ∧
        (∃ fh2 player2, findFirstTag "farmhands" newRoot.children = some fh2 ∧
          fh2.tag = "farmhands" ∧ fh2.attrib = farmhands.attrib ∧
          fh2.text = farmhands.text ∧
          fh2.children = eraseAt farmhands.children i ++ [player2] ∧
          player2.tag = "Farmer" ∧ player2.attrib = player.attrib ∧
          player2.text = player.text ∧
          findFirstTag "homeLocation" player2.children = some (phl.setText thl.text) ∧
          (∀ nm, nm ≠ "homeLocation" →
            findFirstTag nm player2.children = findFirstTag nm player.children) ∧
          (∀ j, firstTagIdx "homeLocation" player.children ≠ some j →
            nth player2.children j = nth player.children j)) ∧
        newRoot.tag = root.tag ∧ newRoot.attrib = root.attrib ∧
        newRoot.text = root.text := by
  intro root player farmhands tfh phl thl i hroot hp hf hnm ht hphl hthl
  have hftag : farmhands.tag = "farmhands" := findFirstTag_tag hf
  have hf1 : xml_find_one_child (player.setTag "Farmer") "homeLocation" none = .ok phl := by
    rw [xml_find_one_child_ok_iff]
    simpa using hphl
  have hf2 : xml_find_one_child (tfh.setTag "player") "homeLocation" none = .ok thl := by
    rw [xml_find_one_child_ok_iff]
    simpa using hthl
  have hmut : doMutation root player farmhands i tfh =
      .ok (root.setChildren
        ((tfh.setTag "player").setChildren
            (setTextFirstTag "homeLocation" phl.text tfh.children) ::
          replaceFirstTag "farmhands"
            (farmhands.setChildren (eraseAt farmhands.children i ++
              [(player.setTag "Farmer").setChildren
                (setTextFirstTag "homeLocation" thl.text player.children)]))
            (removeFirstTag "player" root.children))) := by
    unfold doMutation
    simp only [hf1, hf2, Element.children_setTag]
  refine ⟨_, hmut,
    ⟨(tfh.setTag "player").setChildren
        (setTextFirstTag "homeLocation" phl.text tfh.children),
      ?_, ?_, ?_, ?_, ?_, ?_, ?_, ?_⟩,
    ⟨farmhands.setChildren (eraseAt farmhands.children i ++
        [(player.setTag "Farmer").setChildren
          (setTextFirstTag "homeLocation" thl.text player.children)]),
      (player.setTag "Farmer").setChildren
        (setTextFirstTag "homeLocation" thl.text player.children),
      ?_, ?_, ?_, ?_, ?_, ?_, ?_, ?_, ?_, ?_, ?_⟩,
    ?_, ?_, ?_⟩
  · simp
  · simp
  · simp
  · simp
  · simpa using findFirstTag_setTextFirstTag_self phl.text hthl
  · intro nm hne
    simpa using findFirstTag_setTextFirstTag nm phl.text hne
  · simpa using length_setTextFirstTag "homeLocation" phl.text tfh.children
  · intro j hj
    simpa using nth_setTextFirstTag_ne "homeLocation" phl.text tfh.children j hj
  · have hk : findFirstTag "farmhands" (removeFirstTag "player" root.children) =
        some farmhands := by
      rw [findFirstTag_removeFirstTag "farmhands" (by decide)]
      exact hf
    have hstep := findFirstTag_replaceFirstTag
      (farmhands.setChildren (eraseAt farmhands.children i ++
        [(player.setTag "Farmer").setChildren
          (setTextFirstTag "homeLocation" thl.text player.children)]))
      (by simpa using hftag) hk
    simp only [Element.children_setChildren, findFirstTag]
    rw [if_neg (by simp)]
    exact hstep
  · simpa using hftag
  · simp
  · simp
  · simp
  · simp
  · simp
  · simp
  · simpa using findFirstTag_setTextFirstTag_self thl.text hphl
  · intro nm hne
    simpa using findFirstTag_setTextFirstTag nm thl.text hne
  · intro j hj
    simpa using nth_setTextFirstTag_ne "homeLocation" thl.text player.children j hj
  · simp
  · simp
  · simp

/-- Witness for C3: the scenario swap (Alice at the Farm for Bob at the
Beach, slot 1) succeeds. -/
theorem claim_C3_witness :
    ∃ newRoot, doMutation sampleRoot samplePlayer sampleFarmhands 0 sampleHand =
      .ok newRoot := by
  obtain ⟨nr, hnr, -⟩ := claim_C3_swap_structure sampleRoot samplePlayer
    sampleFarmhands sampleHand hlAlice hlBob 0 rfl rfl rfl
    (by intro h; exact Option.noConfusion h) rfl rfl rfl
  exact ⟨nr, hnr⟩

/-- C10: whenever the mutation sequence runs to completion, the root has
as many direct children afterwards as before (one detached, one inserted)
and the farmhands container holds as many entries as before (one
detached, one appended). -/
theorem claim_C10_child_counts :
    ∀ (root player farmhands tfh newRoot : Element) (i : Nat),
      findFirstTag "player" root.children = some player →
      findFirstTag "farmhands" root.children = some farmhands →
      nth farmhands.children i = some tfh →
      doMutation root player farmhands i tfh = .ok newRoot →
      newRoot.children.length = root.children.length ∧
      ∃ fh2, findFirstTag "farmhands" newRoot.children = some fh2 ∧
        fh2.children.length = farmhands.children.length := by
  intro root player farmhands tfh newRoot i hp hf ht hmut
  have hftag : farmhands.tag = "farmhands" := findFirstTag_tag hf
  have hi : i < farmhands.children.length :=
    (nth_isSome_iff farmhands.children i).mp (by rw [ht]; rfl)
  unfold doMutation at hmut
  cases h1 : xml_find_one_child (player.setTag "Farmer") "homeLocation" none with
  | error e1 =>
    simp only [h1] at hmut
    cases hmut
  | ok phl =>
    simp only [h1] at hmut
    cases h2 : xml_find_one_child (tfh.setTag "player") "homeLocation" none with
    | error e2 =>
      simp only [h2] at hmut
      cases hmut
    | ok thl =>
      simp only [h2, Element.children_setTag] at hmut
      cases hmut
      have hlen1 := length_removeFirstTag hp
      have hlen2 := length_eraseAt farmhands.children i hi
      have hk : findFirstTag "farmhands" (removeFirstTag "player" root.children) =
          some farmhands := by
        rw [findFirstTag_removeFirstTag "farmhands" (by decide)]
        exact hf
      constructor
      · simp only [Element.children_setChildren, List.length_cons,
          length_replaceFirstTag]
        omega
      · refine ⟨farmhands.setChildren (eraseAt farmhands.children i ++
            [(player.setTag "Farmer").setChildren
              (setTextFirstTag "homeLocation" thl.text player.children)]),
            ?_, ?_⟩
        · simp only [Element.children_setChildren, findFirstTag]
          rw [if_neg (by simp)]
          exact findFirstTag_replaceFirstTag _ (by simpa using hftag) hk
        · simp only [Element.children_setChildren, List.length_append,
            List.length_cons, List.length_nil]
          omega

/-- The swapped scenario document: Bob now the root player at the Farm,
Alice stored as a `Farmer` entry at the Beach behind the empty slot. -/
def swappedPlayer : Element :=
  .mk "player" [] none [nameBob, .mk "homeLocation" [] (some "Farm") []]

def storedFarmer : Element :=
  .mk "Farmer" [] none [nameAlice, .mk "homeLocation" [] (some "Beach") []]

def swappedFarmhands : Element := .mk "farmhands" [] none [emptyHand, storedFarmer]

def swappedRoot : Element := .mk "SaveGame" [] none [swappedPlayer, swappedFarmhands]

/-- Witness for C10: the scenario swap keeps the root at two children and
the farmhands container at two entries. -/
theorem claim_C10_witness :
    swappedRoot.children.length = sampleRoot.children.length ∧
    ∃ fh2, findFirstTag "farmhands" swappedRoot.children = some fh2 ∧
      fh2.children.length = sampleFarmhands.children.length :=
  claim_C10_child_counts sampleRoot samplePlayer sampleFarmhands sampleHand
    swappedRoot 0 rfl rfl rfl rfl

/-- C4: if the former player or the selected farmhand has no
`homeLocation` child, the confirmed run fails with exit status 3, and
since this happens before the backup rename, the directory contents —
save file included, with no backup created — are exactly as before. -/
theorem claim_C4_missing_homeLocation :
    ∀ (w : World) (root player : Element) (pname : String) (farmhands : Element)
      (names : List (Option String)) (e : DirEntry) (i : Nat) (tfh : Element),
      w.pathExists = true → w.pathIsDir = true →
      (scanDir w.dirName w.fs false none).1 = true →
      (scanDir w.dirName w.fs false none).2 = some e →
      xmlStage w = .ok (root, player, pname, farmhands, names) →
      selLoop names farmhands.children w.selectInputs = .selected i tfh →
      confLoop w.confirmInputs = .yes →
      (findFirstTag "homeLocation" player.children = none ∨
        findFirstTag "homeLocation" tfh.children = none) →
      doMutation root player farmhands i tfh = .error 3 ∧
      runProgram w = .exited 3 w.fs := by
  intro w root player pname farmhands names e i tfh
  intro hp hd hs1 hs2 hxml hsel hconf hmiss
  have hmut : doMutation root player farmhands i tfh = .error 3 := by
    unfold doMutation
    rcases hmiss with hnone | hnone
    · have h1 : xml_find_one_child (player.setTag "Farmer") "homeLocation" none =
          .error (.notFound "homeLocation" (player.setTag "Farmer").tag) := by
        rw [xml_find_one_child_none_eq]
        simp [hnone]
      simp only [h1]
    · cases hph : findFirstTag "homeLocation" player.children with
      | none =>
        have h1 : xml_find_one_child (player.setTag "Farmer") "homeLocation" none =
            .error (.notFound "homeLocation" (player.setTag "Farmer").tag) := by
          rw [xml_find_one_child_none_eq]
          simp [hph]
        simp only [h1]
      | some phl =>
        have h1 : xml_find_one_child (player.setTag "Farmer") "homeLocation" none =
            .ok phl := by
          rw [xml_find_one_child_ok_iff]
          simpa using hph
        have h2 : xml_find_one_child (tfh.setTag "player") "homeLocation" none =
            .error (.notFound "homeLocation" (tfh.setTag "player").tag) := by
          rw [xml_find_one_child_none_eq]
          simp [hnone]
        simp only [h1, h2]
  refine ⟨hmut, ?_⟩
  rw [runProgram_reach w root player pname farmhands names e hp hd hs1 hs2 hxml]
  unfold afterSelect
  rw [hsel]
  unfold afterConfirmStep
  rw [hconf]
  simp only [hmut]

/-- A save in which Bob's farmhand record lacks a `homeLocation` child. -/
def noHLHand : Element := .mk "Farmer" [] none [nameBob]

def noHLFarmhands : Element := .mk "farmhands" [] none [noHLHand]

def noHLRoot : Element := .mk "SaveGame" [] none [samplePlayer, noHLFarmhands]

def wNoHL : World :=
  ⟨true, true, "Save1", sampleDir, some noHLRoot, false, [.anInt 1], [.line "Y"]⟩

/-- Witness for C4: with Bob's record missing its `homeLocation`, the
confirmed run exits with status 3 leaving the directory untouched. -/
theorem claim_C4_witness : runProgram wNoHL = .exited 3 wNoHL.fs :=
  (claim_C4_missing_homeLocation wNoHL noHLRoot samplePlayer "Alice" noHLFarmhands
    [some "Bob"] ⟨"Save1", true, .raw "OLDXML"⟩ 0 noHLHand
    rfl rfl rfl rfl rfl rfl rfl (Or.inr rfl)).2

theorem fsLookup_fsErase_ne (n m : String) (hne : n ≠ m) :
    ∀ fs : List DirEntry, fsLookup n (fsErase m fs) = fsLookup n fs := by
  have hmn : ¬ (m = n) := fun hh => hne hh.symm
  intro fs
  induction fs with
  | nil => rfl
  | cons e rest ih =>
    by_cases hm : e.name = m
    · simp [fsErase, fsLookup, hm, hmn, ih]
    · by_cases hn : e.name = n
      · simp [fsErase, fsLookup, hm, hn, hne]
      · simp [fsErase, fsLookup, hm, hn, ih]

theorem fsLookup_fsWrite_self (n : String) (d : FileData) (fs : List DirEntry) :
    fsLookup n (fsWrite n d fs) = some d := by
  simp [fsWrite, fsLookup]

theorem fsLookup_fsWrite_ne (n m : String) (d : FileData) (fs : List DirEntry)
    (hne : n ≠ m) : fsLookup n (fsWrite m d fs) = fsLookup n fs := by
  have hmn : ¬ (m = n) := fun hh => hne hh.symm
  simp only [fsWrite, fsLookup, hmn, if_false, if_neg hmn]
  exact fsLookup_fsErase_ne n m hne fs

theorem orig_ne (dn : String) : dn ++ ".orig" ≠ dn := by
  intro h
  have h5 : (dn ++ ".orig").length = dn.length + 5 := by
    rw [String.length_append]
    rfl
  rw [h] at h5
  omega

/-- After the persist step, the backup path holds exactly what the save
file held before — whatever used to sit at the backup path is gone. -/
theorem persistStep_backup (dn : String) (pretty : Bool) (nr : Element)
    (fs : List DirEntry) (d : FileData) (h : fsLookup dn fs = some d) :
    fsLookup (dn ++ ".orig") (persistStep dn pretty nr fs) = some d := by
  unfold persistStep fsRename
  rw [h]
  rw [fsLookup_fsWrite_ne _ _ _ _ (orig_ne dn)]
  exact fsLookup_fsWrite_self _ _ _

/-- C2 (amended): the run touches the directory only on the fully
successful path — all prompts answered, every mutation step done — and
there it performs exactly the backup rename followed by the write; the
rename does not fail when a file already occupies the backup path but
silently replaces it with the old save content (POSIX `rename`
semantics of `pathlib.Path.rename`). -/
theorem claim_C2_persist_frame :
    ∀ (w : World) (c : Nat) (fs2 : List DirEntry),
      runProgram w = .exited c fs2 →
      fs2 = w.fs ∨
      (c = 0 ∧
        ∃ root player pname farmhands names i tfh newRoot,
          xmlStage w = .ok (root, player, pname, farmhands, names) ∧
          selLoop names farmhands.children w.selectInputs = .selected i tfh ∧
          confLoop w.confirmInputs = .yes ∧
          doMutation root player farmhands i tfh = .ok newRoot ∧
          fs2 = persistStep w.dirName w.xmlFormat newRoot w.fs ∧
          ∀ d, fsLookup w.dirName w.fs = some d →
            fsLookup (w.dirName ++ ".orig") fs2 = some d) := by
  intro w c fs2 h
  unfold runProgram at h
  by_cases hp : w.pathExists = false
  · rw [if_pos hp] at h
    injection h with h1 h2
    exact Or.inl h2.symm
  rw [if_neg hp] at h
  by_cases hd : w.pathIsDir = false
  · rw [if_pos hd] at h
    injection h with h1 h2
    exact Or.inl h2.symm
  rw [if_neg hd] at h
  by_cases hs1 : (scanDir w.dirName w.fs false none).1 = false
  · rw [if_pos hs1] at h
    injection h with h1 h2
    exact Or.inl h2.symm
  rw [if_neg hs1] at h
  cases hs2 : (scanDir w.dirName w.fs false none).2 with
  | none =>
    rw [hs2] at h
    injection h with h1 h2
    exact Or.inl h2.symm
  | some e =>
    rw [hs2] at h
    cases hxml : xmlStage w with
    | error c2 =>
      rw [hxml] at h
      injection h with h1 h2
      exact Or.inl h2.symm
    | ok tup =>
      obtain ⟨root, player, pname, farmhands, names⟩ := tup
      rw [hxml] at h
      simp only at h
      unfold afterSelect at h
      cases hsel : selLoop names farmhands.children w.selectInputs with
      | pending => rw [hsel] at h; cases h
      | exit0 =>
        rw [hsel] at h
        injection h with h1 h2
        exact Or.inl h2.symm
      | selected i tfh =>
        rw [hsel] at h
        simp only at h
        unfold afterConfirmStep at h
        cases hconf : confLoop w.confirmInputs with
        | pending => rw [hconf] at h; cases h
        | exit0 =>
          rw [hconf] at h
          injection h with h1 h2
          exact Or.inl h2.symm
        | no =>
          rw [hconf] at h
          injection h with h1 h2
          exact Or.inl h2.symm
        | yes =>
          rw [hconf] at h
          simp only at h
          cases hmut : doMutation root player farmhands i tfh with
          | error c3 =>
            rw [hmut] at h
            injection h with h1 h2
            exact Or.inl h2.symm
          | ok newRoot =>
            rw [hmut] at h
            injection h with h1 h2
            refine Or.inr ⟨h1.symm, ?_⟩
            refine ⟨root, player, pname, farmhands, names, i, tfh, newRoot,
              rfl, hsel, rfl, hmut, h2.symm, ?_⟩
            intro d hdd
            rw [← h2]
            exact persistStep_backup w.dirName w.xmlFormat newRoot w.fs d hdd

/-- The scenario save directory with a file already sitting at the
backup path `Save1.orig`. -/
def dirWithBackup : List DirEntry :=
  [⟨"SaveGameInfo", true, .raw "info"⟩, ⟨"Save1", true, .raw "OLDXML"⟩,
   ⟨"Save1.orig", true, .raw "PREEXISTING"⟩]

def wBackup : World :=
  ⟨true, true, "Save1", dirWithBackup, some sampleRoot, false,
    [.anInt 1], [.line "Y"]⟩

/-- The directory the run actually leaves behind in that situation. -/
def backupFinalFs : List DirEntry :=
  [⟨"Save1", true, .xml swappedRoot false⟩,
   ⟨"Save1.orig", true, .raw "OLDXML"⟩,
   ⟨"SaveGameInfo", true, .raw "info"⟩]

/-- Counterexample to C2 as stated: with a file already occupying the
backup path, the process does not fail fatally and does not leave the
disk alone — it exits 0, silently replaces the pre-existing backup with
the old save content, and writes the new document at the save path. -/
theorem claim_C2_counterexample :
    fsLookup "Save1.orig" wBackup.fs = some (.raw "PREEXISTING") ∧
    runProgram wBackup = .exited 0 backupFinalFs ∧
    fsLookup "Save1.orig" backupFinalFs = some (.raw "OLDXML") ∧
    fsLookup "Save1" backupFinalFs = some (.xml swappedRoot false) ∧
    backupFinalFs ≠ wBackup.fs := by
  refine ⟨rfl, rfl, rfl, rfl, ?_⟩
  intro h
  have h1 : fsLookup "Save1.orig" backupFinalFs = fsLookup "Save1.orig" wBackup.fs := by
    rw [h]
  rw [show fsLookup "Save1.orig" backupFinalFs = some (.raw "OLDXML") from rfl,
    show fsLookup "Save1.orig" wBackup.fs = some (.raw "PREEXISTING") from rfl] at h1
  injection h1 with h2
  injection h2 with h3
  exact absurd h3 (by decide)

/-- Witness for the amended C2: the frame theorem applied to the run with
the pre-existing backup. -/
theorem claim_C2_witness :
    backupFinalFs = wBackup.fs ∨
    (0 = 0 ∧
      ∃ root player pname farmhands names i tfh newRoot,
        xmlStage wBackup = .ok (root, player, pname, farmhands, names) ∧
        selLoop names farmhands.children wBackup.selectInputs = .selected i tfh ∧
        confLoop wBackup.confirmInputs = .yes ∧
        doMutation root player farmhands i tfh = .ok newRoot ∧
        backupFinalFs = persistStep wBackup.dirName wBackup.xmlFormat newRoot wBackup.fs ∧
        ∀ d, fsLookup wBackup.dirName wBackup.fs = some d →
          fsLookup (wBackup.dirName ++ ".orig") backupFinalFs = some d) :=
  claim_C2_persist_frame wBackup 0 backupFinalFs rfl

theorem extractNames_only_error :
    ∀ (kids : List Element) (c : Nat), extractNames kids = .error c → c = 3 := by
  intro kids
  induction kids with
  | nil =>
    intro c h
    simp [extractNames] at h
  | cons fh rest ih =>
    intro c h
    simp only [extractNames] at h
    cases hr : entryNameResult fh with
    | error c2 =>
      simp only [hr] at h
      injection h with h1
      rw [← h1]
      exact entryNameResult_only_error fh c2 hr
    | ok r =>
      simp only [hr] at h
      cases hrest : extractNames rest with
      | error c3 =>
        simp only [hrest] at h
        injection h with h1
        rw [← h1]
        exact ih c3 hrest
      | ok ns =>
        simp only [hrest] at h
        cases h

theorem xmlStage_only_error (w : World) (c : Nat) (h : xmlStage w = .error c) :
    c = 3 := by
  unfold xmlStage at h
  cases hpr : w.parse with
  | none =>
    simp only [hpr] at h
    injection h with h1
    exact h1.symm
  | some root =>
    simp only [hpr] at h
    by_cases hroot : root.tag ≠ "SaveGame"
    · rw [if_pos hroot] at h
      injection h with h1
      exact h1.symm
    · rw [if_neg hroot] at h
      cases h1 : xml_find_one_child root "player" none with
      | error e1 =>
        simp only [h1] at h
        injection h with hh
        exact hh.symm
      | ok player =>
        simp only [h1] at h
        cases h2 : xml_find_one_child player "name" none with
        | error e2 =>
          simp only [h2] at h
          injection h with hh
          exact hh.symm
        | ok nameEl =>
          simp only [h2] at h
          cases h3 : nameEl.text with
          | none =>
            simp only [h3] at h
            injection h with hh
            exact hh.symm
          | some pname =>
            simp only [h3] at h
            cases h4 : xml_find_one_child root "farmhands" none with
            | error e4 =>
              simp only [h4] at h
              injection h with hh
              exact hh.symm
            | ok farmhands =>
              simp only [h4] at h
              cases h5 : extractNames farmhands.children with
              | error c5 =>
                simp only [h5] at h
                injection h with hh
                rw [← hh]
                exact extractNames_only_error farmhands.children c5 h5
              | ok names =>
                simp only [h5] at h
                cases h

theorem doMutation_only_error (root player farmhands tfh : Element) (i c : Nat)
    (h : doMutation root player farmhands i tfh = .error c) : c = 3 := by
  unfold doMutation at h
  cases h1 : xml_find_one_child (player.setTag "Farmer") "homeLocation" none with
  | error e1 =>
    simp only [h1] at h
    injection h with h2
    exact h2.symm
  | ok phl =>
    simp only [h1] at h
    cases h2 : xml_find_one_child (tfh.setTag "player") "homeLocation" none with
    | error e2 =>
      simp only [h2] at h
      injection h with h3
      exact h3.symm
    | ok thl =>
      simp only [h2] at h
      cases h

/-- The condition for exit status 1: save path missing or not a directory. -/
def pathBad (w : World) : Prop :=
  w.pathExists = false ∨ w.pathIsDir = false

/-- The condition for exit status 2: the directory scan found no
`SaveGameInfo` marker, or no save file named after the directory. -/
def dirBad (w : World) : Prop :=
  (scanDir w.dirName w.fs false none).1 = false ∨
  (scanDir w.dirName w.fs false none).2 = none

/-- An XML failure before the prompts: parse failure, wrong root tag,
missing player / player name / farmhands, or a farmhand with an empty
name element. -/
def xmlBadEarly (w : World) : Prop :=
  ∃ c, xmlStage w = .error c

/-- An XML failure after confirmation: the located documents pass, a slot
is selected and confirmed, but a `homeLocation` lookup fails during the
mutation sequence. -/
def mutationBad (w : World) : Prop :=
  ∃ root player pname farmhands names i tfh,
    xmlStage w = .ok (root, player, pname, farmhands, names) ∧
    selLoop names farmhands.children w.selectInputs = .selected i tfh ∧
    confLoop w.confirmInputs = .yes ∧
    doMutation root player farmhands i tfh = .error 3

theorem mutationBad_elim {w : World} {root player : Element} {pname : String}
    {farmhands : Element} {names : List (Option String)}
    (hxml : xmlStage w = .ok (root, player, pname, farmhands, names))
    (hmb : mutationBad w) :
    ∃ i tfh, selLoop names farmhands.children w.selectInputs = .selected i tfh ∧
      confLoop w.confirmInputs = .yes ∧
      doMutation root player farmhands i tfh = .error 3 := by
  obtain ⟨r', p', pn', f', n', i, tfh, hxml', hsel, hconf, hmut⟩ := hmb
  rw [hxml] at hxml'
  injection hxml' with htup
  obtain ⟨h1, h2, h3, h4, h5⟩ :
      root = r' ∧ player = p' ∧ pname = pn' ∧ farmhands = f' ∧ names = n' := by
    simpa [Prod.ext_iff] using htup
  subst h1
  subst h2
  subst h3
  subst h4
  subst h5
  exact ⟨i, tfh, hsel, hconf, hmut⟩

/-- Every exit of the run falls into exactly one of the four documented
classes. -/
theorem runProgram_classify :
    ∀ (w : World) (c : Nat) (fs2 : List DirEntry),
      runProgram w = .exited c fs2 →
      (c = 1 ∧ pathBad w) ∨
      (c = 2 ∧ ¬ pathBad w ∧ dirBad w) ∨
      (c = 3 ∧ ¬ pathBad w ∧ ¬ dirBad w ∧ (xmlBadEarly w ∨ mutationBad w)) ∨
      (c = 0 ∧ ¬ pathBad w ∧ ¬ dirBad w ∧ ¬ xmlBadEarly w ∧ ¬ mutationBad w) := by
  intro w c fs2 h
  unfold runProgram at h
  by_cases hp : w.pathExists = false
  · rw [if_pos hp] at h
    injection h with h1 h2
    exact Or.inl ⟨h1.symm, Or.inl hp⟩
  rw [if_neg hp] at h
  by_cases hd : w.pathIsDir = false
  · rw [if_pos hd] at h
    injection h with h1 h2
    exact Or.inl ⟨h1.symm, Or.inr hd⟩
  rw [if_neg hd] at h
  have hnp : ¬ pathBad w := fun hb => hb.elim hp hd
  by_cases hs1 : (scanDir w.dirName w.fs false none).1 = false
  · rw [if_pos hs1] at h
    injection h with h1 h2
    exact Or.inr (Or.inl ⟨h1.symm, hnp, Or.inl hs1⟩)
  rw [if_neg hs1] at h
  cases hs2 : (scanDir w.dirName w.fs false none).2 with
  | none =>
    rw [hs2] at h
    injection h with h1 h2
    exact Or.inr (Or.inl ⟨h1.symm, hnp, Or.inr hs2⟩)
  | some e =>
    rw [hs2] at h
    have hnd : ¬ dirBad w := by
      intro hb
      rcases hb with hb | hb
      · exact hs1 hb
      · rw [hs2] at hb
        cases hb
    cases hxml : xmlStage w with
    | error c2 =>
      rw [hxml] at h
      injection h with h1 h2
      refine Or.inr (Or.inr (Or.inl ⟨?_, hnp, hnd, Or.inl ⟨c2, hxml⟩⟩))
      rw [← h1]
      exact xmlStage_only_error w c2 hxml
    | ok tup =>
      obtain ⟨root, player, pname, farmhands, names⟩ := tup
      rw [hxml] at h
      simp only at h
      have hnoxml : ¬ xmlBadEarly w := by
        rintro ⟨c2, hc⟩
        rw [hxml] at hc
        cases hc
      unfold afterSelect at h
      cases hsel : selLoop names farmhands.children w.selectInputs with
      | pending =>
        rw [hsel] at h
        cases h
      | exit0 =>
        rw [hsel] at h
        injection h with h1 h2
        refine Or.inr (Or.inr (Or.inr ⟨h1.symm, hnp, hnd, hnoxml, ?_⟩))
        intro hmb
        obtain ⟨i, tfh, hsel', -, -⟩ := mutationBad_elim hxml hmb
        rw [hsel] at hsel'
        cases hsel'
      | selected i tfh =>
        rw [hsel] at h
        simp only at h
        unfold afterConfirmStep at h
        cases hconf : confLoop w.confirmInputs with
        | pending =>
          rw [hconf] at h
          cases h
        | exit0 =>
          rw [hconf] at h
          injection h with h1 h2
          refine Or.inr (Or.inr (Or.inr ⟨h1.symm, hnp, hnd, hnoxml, ?_⟩))
          intro hmb
          obtain ⟨i', tfh', hsel', hconf', -⟩ := mutationBad_elim hxml hmb
          rw [hconf] at hconf'
          cases hconf'
        | no =>
          rw [hconf] at h
          injection h with h1 h2
          refine Or.inr (Or.inr (Or.inr ⟨h1.symm, hnp, hnd, hnoxml, ?_⟩))
          intro hmb
          obtain ⟨i', tfh', hsel', hconf', -⟩ := mutationBad_elim hxml hmb
          rw [hconf] at hconf'
          cases hconf'
        | yes =>
          rw [hconf] at h
          simp only at h
          cases hmut : doMutation root player farmhands i tfh with
          | error c3 =>
            rw [hmut] at h
            injection h with h1 h2
            have hc3 : c3 = 3 :=
              doMutation_only_error root player farmhands tfh i c3 hmut
            refine Or.inr (Or.inr (Or.inl ⟨?_, hnp, hnd, Or.inr ?_⟩))
            · rw [← h1, hc3]
            · refine ⟨root, player, pname, farmhands, names, i, tfh,
                hxml, hsel, hconf, ?_⟩
              rw [← hc3]
              exact hmut
          | ok newRoot =>
            rw [hmut] at h
            injection h with h1 h2
            refine Or.inr (Or.inr (Or.inr ⟨h1.symm, hnp, hnd, hnoxml, ?_⟩))
            intro hmb
            obtain ⟨i', tfh', hsel', hconf', hmut'⟩ := mutationBad_elim hxml hmb
            rw [hsel] at hsel'
            injection hsel' with hi htfh
            subst hi
            subst htfh
            rw [hmut] at hmut'
            cases hmut'

/-- C7: whenever the run exits, its status is exactly one of the four
documented codes, each equivalent to its documented condition: 1 for a
missing or non-directory save path; 2 for a directory without the
`SaveGameInfo` marker or the save file named after it; 3 for any XML
structural or parsing failure, before the prompts or during the mutation
sequence; 0 otherwise — success or user cancellation. -/
theorem claim_C7_exit_codes :
    ∀ (w : World) (c : Nat) (fs2 : List DirEntry),
      runProgram w = .exited c fs2 →
      ((c = 1) ↔ pathBad w) ∧
      ((c = 2) ↔ ¬ pathBad w ∧ dirBad w) ∧
      ((c = 3) ↔ ¬ pathBad w ∧ ¬ dirBad w ∧ (xmlBadEarly w ∨ mutationBad w)) ∧
      ((c = 0) ↔ ¬ pathBad w ∧ ¬ dirBad w ∧ ¬ xmlBadEarly w ∧ ¬ mutationBad w) := by
  intro w c fs2 h
  rcases runProgram_classify w c fs2 h with
    ⟨hc, hcond⟩ | ⟨hc, hcond⟩ | ⟨hc, hcond⟩ | ⟨hc, hcond⟩
  · subst hc
    exact ⟨⟨fun _ => hcond, fun _ => rfl⟩,
      ⟨fun hh => absurd hh (by decide), fun hh => absurd hcond hh.1⟩,
      ⟨fun hh => absurd hh (by decide), fun hh => absurd hcond hh.1⟩,
      ⟨fun hh => absurd hh (by decide), fun hh => absurd hcond hh.1⟩⟩
  · subst hc
    exact ⟨⟨fun hh => absurd hh (by decide), fun hpb => absurd hpb hcond.1⟩,
      ⟨fun _ => hcond, fun _ => rfl⟩,
      ⟨fun hh => absurd hh (by decide), fun hh => absurd hcond.2 hh.2.1⟩,
      ⟨fun hh => absurd hh (by decide), fun hh => absurd hcond.2 hh.2.1⟩⟩
  · subst hc
    refine ⟨⟨fun hh => absurd hh (by decide), fun hpb => absurd hpb hcond.1⟩,
      ⟨fun hh => absurd hh (by decide), fun hh => absurd hh.2 hcond.2.1⟩,
      ⟨fun _ => hcond, fun _ => rfl⟩,
      ⟨fun hh => absurd hh (by decide), fun hh => ?_⟩⟩
    rcases hcond.2.2 with hx | hm
    · exact absurd hx hh.2.2.1
    · exact absurd hm hh.2.2.2
  · subst hc
    refine ⟨⟨fun hh => absurd hh (by decide), fun hpb => absurd hpb hcond.1⟩,
      ⟨fun hh => absurd hh (by decide), fun hh => absurd hh.2 hcond.2.1⟩,
      ⟨fun hh => absurd hh (by decide), fun hh => ?_⟩,
      ⟨fun _ => hcond, fun _ => rfl⟩⟩
    rcases hh.2.2 with hx | hm
    · exact absurd hx hcond.2.2.1
    · exact absurd hm hcond.2.2.2

/-- The directory a fully successful scenario run leaves behind. -/
def sampleFinalFs : List DirEntry :=
  [⟨"Save1", true, .xml swappedRoot false⟩,
   ⟨"Save1.orig", true, .raw "OLDXML"⟩,
   ⟨"SaveGameInfo", true, .raw "info"⟩]

/-- Witness for C7: the fully successful scenario run exits 0, and the
four equivalences hold there. -/
theorem claim_C7_witness :
    ((0 = 1) ↔ pathBad sampleWorld) ∧
    ((0 = 2) ↔ ¬ pathBad sampleWorld ∧ dirBad sampleWorld) ∧
    ((0 = 3) ↔ ¬ pathBad sampleWorld ∧ ¬ dirBad sampleWorld ∧
      (xmlBadEarly sampleWorld ∨ mutationBad sampleWorld)) ∧
    ((0 = 0) ↔ ¬ pathBad sampleWorld ∧ ¬ dirBad sampleWorld ∧
      ¬ xmlBadEarly sampleWorld ∧ ¬ mutationBad sampleWorld) :=
  claim_C7_exit_codes sampleWorld 0 sampleFinalFs rfl
